import Mathlib

set_option maxRecDepth 40000

/-!
Verification of the receipt-processor service (`main.go`).

The development shallowly embeds the two core functions of the source,
`calculatePoints` and `validateReceipt`, together with the Go standard-library
behaviour they rely on:

* `strconv.ParseFloat` and IEEE-754 binary64 arithmetic are modelled exactly:
  a double is a finite dyadic rational, `+Inf`, `-Inf` or `NaN` (`GoFloat`);
  parsing accepts the full grammar (decimal and hexadecimal literals,
  digit-separating underscores, and the case-insensitive `inf`/`infinity`/
  `nan` spellings) and rounds the exact literal value to the nearest
  representable 53-bit significand (ties to even) with IEEE overflow and
  gradual underflow; each float operation (`*`, `math.Mod`, `math.Ceil`,
  conversions, `%.2f` formatting) gets its exact IEEE semantics.  Conversions
  of out-of-`int64`-range values to `int` are implementation-defined in Go and
  modelled as the amd64 result `-2^63`; Go `int` additions wrap at 64 bits
  (`wrap64`), as Go defines.
* `time.Parse` with layouts `"2006-01-02"` and `"15:04"` is modelled by the
  exact digit grammar of Go's `getnum` (fixed two-digit month/day/minute,
  one-or-two-digit hour) with Go's range checks, and the `Day()`/`Hour()`
  accessors of the zero `time.Time` (day 1, hour 0) model the ignored parse
  errors in `calculatePoints`.
* the regular expressions `^[\w\s\-\&]+$`, `^[\w\s\-]+$` and `^\d+\.\d{2}$`
  are modelled by Go's character classes (`\w` = ASCII alphanumerics plus
  underscore, `\s` = tab, newline, form feed, carriage return, space).
* `strings.TrimSpace` trims `unicode.IsSpace` runes and Go's `len` counts
  UTF-8 bytes.
-/

/-! ### Decimal digits: Go's `%d` formatting and digit scanning -/

/-- The ASCII digit character for `n < 10`. -/
def digitChar (n : ℕ) : Char := Char.ofNat (48 + n)

/-- Go's byte-level digit test `'0' <= c && c <= '9'`. -/
def isDigitChar (c : Char) : Bool := 48 ≤ c.toNat && c.toNat ≤ 57

/-- Value of a big-endian list of ASCII digits. -/
def digitsVal (ds : List Char) : ℕ := ds.foldl (fun a c => 10 * a + (c.toNat - 48)) 0

/-- Splits off the maximal leading run of ASCII digits. -/
def takeDigits : List Char → List Char × List Char
  | [] => ([], [])
  | c :: t =>
    if isDigitChar c then
      let p := takeDigits t
      (c :: p.1, p.2)
    else ([], c :: t)

/-- Decimal digits of `n`, most significant first (`fuel ≥ n + 1` suffices). -/
def natReprChars : ℕ → ℕ → List Char
  | 0, _ => []
  | fuel + 1, n =>
    if n < 10 then [digitChar n] else natReprChars fuel (n / 10) ++ [digitChar (n % 10)]

/-- Decimal rendering of a natural number, as printed by Go's `%d`. -/
def natRepr (n : ℕ) : String := ⟨natReprChars (n + 1) n⟩

/-- Decimal rendering of an integer, as printed by Go's `%d`. -/
def intRepr (i : ℤ) : String := if i < 0 then "-" ++ natRepr (-i).toNat else natRepr i.toNat

/-- The integer parsed from the leading `"{n} points"` token of a breakdown
line: an optional minus sign followed by the maximal run of digits. -/
def leadingPoints (s : String) : ℤ :=
  match s.data with
  | [] => 0
  | c :: t =>
    if c = '-' then -(digitsVal (takeDigits t).1 : ℤ) else (digitsVal (takeDigits (c :: t)).1 : ℤ)

/-- Sum of the leading point tokens of a list of breakdown lines. -/
def sumLeading : List String → ℤ
  | [] => 0
  | s :: t => leadingPoints s + sumLeading t

/-! ### Go regular-expression character classes -/

/-- Go regexp `\w`: ASCII alphanumerics and underscore. -/
def isWordChar (c : Char) : Bool := c.isAlphanum || c = '_'

/-- Go regexp `\s`: tab, newline, form feed, carriage return, space. -/
def goRegexSpace (c : Char) : Bool :=
  c = '\t' || c = '\n' || c = '\x0c' || c = '\r' || c = ' '

/-- Model of matching the retailer against `^[\w\s\-\&]+$` in `validateReceipt`
(anchored on the whole string, one or more characters of the class). -/
def retailerRegexMatch (s : String) : Bool :=
  !s.data.isEmpty && s.data.all fun c => isWordChar c || goRegexSpace c || c = '-' || c = '&'

/-- Model of `^[\w\s\-]+$`.MatchString` for item descriptions. -/
def descRegexMatch (s : String) : Bool :=
  !s.data.isEmpty && s.data.all fun c => isWordChar c || goRegexSpace c || c = '-'

/-- Model of `^\d+\.\d{2}$`.MatchString` for prices and totals. -/
def moneyRegexMatch (s : String) : Bool :=
  let p := takeDigits s.data
  match p.2 with
  | ['.', a, b] => !p.1.isEmpty && isDigitChar a && isDigitChar b
  | _ => false

/-! ### `strings.TrimSpace`, `len`, and `countAlphanumeric` -/

/-- Go `unicode.IsSpace`. -/
def goIsSpace (c : Char) : Bool :=
  c = ' ' || c = '\t' || c = '\n' || c = '\x0b' || c = '\x0c' || c = '\r' ||
  c.toNat = 0x85 || c.toNat = 0xa0 || c.toNat = 0x1680 ||
  (0x2000 ≤ c.toNat && c.toNat ≤ 0x200a) ||
  c.toNat = 0x2028 || c.toNat = 0x2029 || c.toNat = 0x202f || c.toNat = 0x205f ||
  c.toNat = 0x3000

/-- Go `strings.TrimSpace`. -/
def goTrimSpace (s : String) : String :=
  ⟨((s.data.dropWhile goIsSpace).reverse.dropWhile goIsSpace).reverse⟩

/-- UTF-8 byte width of a rune. -/
def charUtf8Size (c : Char) : ℕ :=
  if c.toNat < 0x80 then 1 else if c.toNat < 0x800 then 2
  else if c.toNat < 0x10000 then 3 else 4

/-- Go `len` on a string: its UTF-8 byte count. -/
def goStrLen (s : String) : ℕ := s.data.foldr (fun c n => charUtf8Size c + n) 0

/-- `countAlphanumeric` from `main.go`: counts runes in `a-z`, `A-Z`, `0-9`. -/
def countAlphanumeric (s : String) : ℕ :=
  (s.data.filter fun c =>
    ('a' ≤ c && c ≤ 'z') || ('A' ≤ c && c ≤ 'Z') || ('0' ≤ c && c ≤ '9')).length

/-! ### `time.Parse` with layouts `"2006-01-02"` and `"15:04"` -/

/-- Value of one ASCII digit character. -/
def charDigit (c : Char) : ℕ := c.toNat - 48

/-- Go `isLeap`. -/
def isLeapYear (y : ℕ) : Bool := y % 4 == 0 && (y % 100 != 0 || y % 400 == 0)

/-- Go `daysIn` for a month in `1..12`. -/
def daysInMonth (m y : ℕ) : ℕ :=
  if m = 2 then (if isLeapYear y then 29 else 28)
  else if m = 4 ∨ m = 6 ∨ m = 9 ∨ m = 11 then 30
  else 31

/-- `time.Parse("2006-01-02", s)`: exactly four year digits, a dash, exactly
two month digits (range 1–12), a dash, exactly two day digits (range checked
against the month), nothing else.  Returns `(year, month, day)`. -/
def goParseDate (s : String) : Option (ℕ × ℕ × ℕ) :=
  match s.data with
  | [y1, y2, y3, y4, '-', m1, m2, '-', d1, d2] =>
    if isDigitChar y1 && isDigitChar y2 && isDigitChar y3 && isDigitChar y4 &&
       isDigitChar m1 && isDigitChar m2 && isDigitChar d1 && isDigitChar d2 then
      let y := digitsVal [y1, y2, y3, y4]
      let mo := 10 * charDigit m1 + charDigit m2
      let d := 10 * charDigit d1 + charDigit d2
      if 1 ≤ mo ∧ mo ≤ 12 then
        if 1 ≤ d ∧ d ≤ daysInMonth mo y then some (y, mo, d) else none
      else none
    else none
  | _ => none

/-- `time.Parse("15:04", s)`: a one- or two-digit hour (Go's `getnum` with
`fixed = false`, range 0–23), a colon, exactly two minute digits (range 0–59),
nothing else.  Returns `(hour, minute)`. -/
def goParseTime (s : String) : Option (ℕ × ℕ) :=
  match s.data with
  | [h1, ':', m1, m2] =>
    if isDigitChar h1 && isDigitChar m1 && isDigitChar m2 then
      let h := charDigit h1
      let mi := 10 * charDigit m1 + charDigit m2
      if h < 24 ∧ mi < 60 then some (h, mi) else none
    else none
  | [h1, h2, ':', m1, m2] =>
    if isDigitChar h1 && isDigitChar h2 && isDigitChar m1 && isDigitChar m2 then
      let h := 10 * charDigit h1 + charDigit h2
      let mi := 10 * charDigit m1 + charDigit m2
      if h < 24 ∧ mi < 60 then some (h, mi) else none
    else none
  | _ => none

/-- `date.Day()` after `date, _ := time.Parse(...)`: the parsed day, or day 1
of the zero `time.Time` when the (ignored) parse failed. -/
def goDateDay (s : String) : ℕ :=
  match goParseDate s with
  | some ymd => ymd.2.2
  | none => 1

/-- `t.Hour()` after `t, _ := time.Parse(...)`: the parsed hour, or hour 0 of
the zero `time.Time` when the (ignored) parse failed. -/
def goTimeHour (s : String) : ℕ :=
  match goParseTime s with
  | some hm => hm.1
  | none => 0

/-! ### IEEE-754 binary64 model over `ℚ`

A finite double is a rational `± m * 2^e` with `m < 2^53`.  `roundFloat`
rounds an arbitrary rational to the nearest such value (ties to even),
which is exactly what `strconv.ParseFloat` and each exact-input float
operation do in the normal range. -/

/-- Fueled base-2 logarithm (`natLog2 n = ⌊log₂ n⌋` for `n ≥ 1`). -/
def log2fuel : ℕ → ℕ → ℕ
  | 0, _ => 0
  | fuel + 1, n => if n ≥ 2 then log2fuel fuel (n / 2) + 1 else 0

/-- `⌊log₂ n⌋` for `n ≥ 1`, by fueled structural recursion. -/
def natLog2 (n : ℕ) : ℕ := log2fuel n n

/-- Nearest integer to `n / d` (for `d > 0`), ties to even. -/
def roundMantissa (n d : ℕ) : ℕ :=
  let q := n / d
  let r := n % d
  if 2 * r < d then q
  else if d < 2 * r then q + 1
  else if q % 2 = 0 then q else q + 1

/-- Round `(n / d) * 2^(-e)` to the nearest integer, ties to even. -/
def mantAt (n d : ℕ) (e : ℤ) : ℕ :=
  if e ≤ 0 then roundMantissa (n * 2 ^ (-e).toNat) d else roundMantissa n (d * 2 ^ e.toNat)

/-- The exponent of the binary64 value nearest to `n / d`: the smallest `e`
whose rounded significand fits in 53 bits (the estimate from the integer
logs is off by at most one). -/
def floatExp (n d : ℕ) : ℤ :=
  let e0 : ℤ := (natLog2 n : ℤ) - (natLog2 d : ℤ) - 52
  if mantAt n d (e0 - 1) < 2 ^ 53 then e0 - 1
  else if mantAt n d e0 < 2 ^ 53 then e0
  else e0 + 1

/-- The rational `m * 2^e`. -/
def dyadic (m : ℕ) (e : ℤ) : ℚ :=
  if 0 ≤ e then mkRat ((m * 2 ^ e.toNat : ℕ) : ℤ) 1 else mkRat (m : ℤ) (2 ^ (-e).toNat)

/-- The binary64 value nearest to the positive rational `n / d`. -/
def roundFloatPos (n d : ℕ) : ℚ := dyadic (mantAt n d (floatExp n d)) (floatExp n d)

/-- The binary64 value nearest to a rational (round to nearest, ties to even). -/
def roundFloat (q : ℚ) : ℚ :=
  if q.num = 0 then 0
  else if 0 < q.num then roundFloatPos q.num.toNat q.den
  else -roundFloatPos (-q.num).toNat q.den

/-- Exact product of two rationals, computed on the raw representation
(Mathlib's `Rat.mul` is `@[irreducible]`, so the kernel cannot evaluate it). -/
def qmul (a b : ℚ) : ℚ := mkRat (a.num * b.num) (a.den * b.den)

/-- Exact difference of two rationals on the raw representation. -/
def qsub (a b : ℚ) : ℚ := mkRat (a.num * (b.den : ℤ) - b.num * (a.den : ℤ)) (a.den * b.den)

/-- Go's `int(x)` conversion of a finite double: truncation toward zero. -/
def truncFloatToInt (q : ℚ) : ℤ := Int.tdiv q.num (q.den : ℤ)

/-- Go's `float64(n)` conversion of an integer: the nearest double. -/
def floatOfInt (z : ℤ) : ℚ := roundFloat (mkRat z 1)

/-- Go's `int(math.Ceil(x))` on a finite double in range: the exact ceiling. -/
def ratCeil (q : ℚ) : ℤ := -(Int.fdiv (-q.num) (q.den : ℤ))

/-- Go's `math.Mod(x, y)`: the exact remainder `x - trunc(x/y) * y`
(`fmod` is exact on finite doubles). -/
def goMathMod (x y : ℚ) : ℚ :=
  let n : ℤ := Int.tdiv (x.num * (y.den : ℤ)) ((x.den : ℤ) * y.num)
  qsub x (qmul (mkRat n 1) y)

/-- The double written `0.2` in `calculatePoints` (`3602879701896397 * 2^-54`). -/
def go02 : ℚ := roundFloat (mkRat 1 5)

/-- Nearest integer to `n / d` over `ℤ` (for `d > 0`), ties to even. -/
def roundHalfEvenInt (n : ℤ) (d : ℕ) : ℤ :=
  let f := Int.fdiv n (d : ℤ)
  let r := n - f * (d : ℤ)
  if 2 * r < (d : ℤ) then f
  else if (d : ℤ) < 2 * r then f + 1
  else if f % 2 = 0 then f else f + 1

/-- Go `%.2f` on a nonnegative double: the exact value correctly rounded to
two decimals (`strconv`'s fixed-precision conversion rounds ties to even). -/
def goFormat2Pos (q : ℚ) : String :=
  let n := (roundHalfEvenInt (q.num * 100) q.den).toNat
  natRepr (n / 100) ++ ("." ++ (if n % 100 < 10 then "0" ++ natRepr (n % 100) else natRepr (n % 100)))

/-- Go `%.2f` on a finite double. -/
def goFormat2 (q : ℚ) : String :=
  if q < 0 then "-" ++ goFormat2Pos (-q) else goFormat2Pos q

/-! ### The full `float64` value domain -/

/-- A Go `float64` value: a finite dyadic rational, an infinity, or a NaN. -/
inductive GoFloat where
  | finite (q : ℚ)
  | posInf
  | negInf
  | nan
deriving DecidableEq

/-- IEEE negation of a double. -/
def goNeg : GoFloat → GoFloat
  | .finite q => .finite (-q)
  | .posInf => .negInf
  | .negInf => .posInf
  | .nan => .nan

/-- Rounding a positive rational to binary64 with the full IEEE range: a value
below the normal range rounds with the fixed subnormal granularity `2^-1074`
(underflowing to 0 when it is closer), and a rounded value of `2^1024` or more
overflows to `+Inf`. -/
def roundFloatMag (n d : ℕ) : GoFloat :=
  if n * 2 ^ 1022 < d then
    .finite (mkRat ((roundMantissa (n * 2 ^ 1074) d : ℕ) : ℤ) (2 ^ 1074))
  else
    let q := roundFloatPos n d
    if mkRat ((2 ^ 1024 : ℕ) : ℤ) 1 ≤ q then .posInf else .finite q

/-- The binary64 value nearest to a rational (round to nearest, ties to even),
with overflow to infinity and gradual underflow. -/
def roundFloat64 (q : ℚ) : GoFloat :=
  if q.num = 0 then .finite 0
  else if 0 < q.num then roundFloatMag q.num.toNat q.den
  else goNeg (roundFloatMag (-q.num).toNat q.den)

/-- Go `fmt` `%.2f` on a double (`fmt` prints infinities and NaN by name). -/
def goFormat2F : GoFloat → String
  | .finite q => goFormat2 q
  | .posInf => "+Inf"
  | .negInf => "-Inf"
  | .nan => "NaN"

/-- Go's `int(x)` conversion of a double: exact truncation toward zero in the
`int64` range; out-of-range, `±Inf` and `NaN` conversions are
implementation-defined in Go and modelled as the amd64 result `-2^63`. -/
def goTrunc64 : GoFloat → ℤ
  | .finite q =>
    if -(2 ^ 63) ≤ truncFloatToInt q ∧ truncFloatToInt q < 2 ^ 63 then truncFloatToInt q
    else -(2 ^ 63)
  | _ => -(2 ^ 63)

/-- Go's `int(math.Ceil(x))`: `math.Ceil` is exact on finite doubles, and the
conversion is exact in the `int64` range and implementation-defined (modelled
as amd64's `-2^63`) outside it and on `±Inf`/`NaN`. -/
def goCeilInt : GoFloat → ℤ
  | .finite q =>
    if -(2 ^ 63) ≤ ratCeil q ∧ ratCeil q < 2 ^ 63 then ratCeil q
    else -(2 ^ 63)
  | _ => -(2 ^ 63)

/-- IEEE double multiplication. -/
def goMul : GoFloat → GoFloat → GoFloat
  | .nan, _ => .nan
  | _, .nan => .nan
  | .finite x, .finite y => roundFloat64 (qmul x y)
  | .posInf, .posInf => .posInf
  | .posInf, .negInf => .negInf
  | .negInf, .posInf => .negInf
  | .negInf, .negInf => .posInf
  | .posInf, .finite y => if y = 0 then .nan else if 0 < y then .posInf else .negInf
  | .negInf, .finite y => if y = 0 then .nan else if 0 < y then .negInf else .posInf
  | .finite x, .posInf => if x = 0 then .nan else if 0 < x then .posInf else .negInf
  | .finite x, .negInf => if x = 0 then .nan else if 0 < x then .negInf else .posInf

/-- The result of one Go `int` (64-bit two's-complement) operation: reduce
into `[-2^63, 2^63)`.  Signed overflow wraps, a defined behaviour in Go.
The literals are `2^63` and `2^64`. -/
def wrap64 (z : ℤ) : ℤ :=
  (z + 9223372036854775808) % 18446744073709551616 - 9223372036854775808

/-! ### `strconv.ParseFloat(s, 64)` -/

/-- Optional leading sign; returns `(negative, rest)`. -/
def parseSign : List Char → Bool × List Char
  | [] => (false, [])
  | c :: t => if c = '-' then (true, t) else if c = '+' then (false, t) else (false, c :: t)

/-- ASCII lower-casing, as `strconv`'s `lower` does while parsing. -/
def toLowerChar (c : Char) : Char :=
  if 65 ≤ c.toNat ∧ c.toNat ≤ 90 then Char.ofNat (c.toNat + 32) else c

/-- `special` from `strconv`: case-insensitive `inf`/`infinity` with an
optional sign, and unsigned `nan`, each matching the whole string. -/
def parseSpecial (l : List Char) : Option GoFloat :=
  match l with
  | [] => none
  | c :: t =>
    if c = '+' then
      if t.map toLowerChar = "inf".data ∨ t.map toLowerChar = "infinity".data then some .posInf
      else none
    else if c = '-' then
      if t.map toLowerChar = "inf".data ∨ t.map toLowerChar = "infinity".data then some .negInf
      else none
    else if l.map toLowerChar = "inf".data ∨ l.map toLowerChar = "infinity".data then some .posInf
    else if l.map toLowerChar = "nan".data then some .nan
    else none

/-- One character of Go's `underscoreOK` scan.  The state is the class of the
previous character: `'^'` at the start, `'0'` after a digit or base prefix,
`'_'` after an underscore, `'!'` otherwise; `none` rejects the string. -/
def underscoreStep (hex : Bool) (saw : Char) (c : Char) : Option Char :=
  if isDigitChar c ∨ (hex ∧ 97 ≤ (toLowerChar c).toNat ∧ (toLowerChar c).toNat ≤ 102) then
    some '0'
  else if c = '_' then (if saw = '0' then some '_' else none)
  else if saw = '_' then none
  else some '!'

/-- The scan loop of `underscoreOK`; a trailing underscore also rejects. -/
def underscoreScan (hex : Bool) : Char → List Char → Bool
  | saw, [] => saw != '_'
  | saw, c :: t =>
    match underscoreStep hex saw c with
    | none => false
    | some saw2 => underscoreScan hex saw2 t

/-- `underscoreOK` from `strconv`: underscores may only separate consecutive
digits, or follow a base prefix. -/
def underscoreOK (l : List Char) : Bool :=
  let l1 :=
    match l with
    | '+' :: t => t
    | '-' :: t => t
    | _ => l
  match l1 with
  | '0' :: b :: t =>
    if toLowerChar b = 'b' ∨ toLowerChar b = 'o' ∨ toLowerChar b = 'x' then
      underscoreScan (toLowerChar b = 'x') '0' t
    else underscoreScan false '^' l1
  | _ => underscoreScan false '^' l1

/-- Hexadecimal digit test (after lower-casing). -/
def isHexDigitChar (c : Char) : Bool :=
  isDigitChar c || (97 ≤ (toLowerChar c).toNat && (toLowerChar c).toNat ≤ 102)

/-- Value of one hexadecimal digit. -/
def hexDigitVal (c : Char) : ℕ :=
  if isDigitChar c then charDigit c else (toLowerChar c).toNat - 87

/-- Splits off the maximal leading run of hex digits. -/
def takeHexDigits : List Char → List Char × List Char
  | [] => ([], [])
  | c :: t =>
    if isHexDigitChar c then
      let p := takeHexDigits t
      (c :: p.1, p.2)
    else ([], c :: t)

/-- Value of a big-endian list of hex digits. -/
def hexVal (ds : List Char) : ℕ := ds.foldl (fun a c => 16 * a + hexDigitVal c) 0

/-- The double of value `± mant * 10^e10` (sign applied after rounding, as
IEEE round-to-nearest is symmetric). -/
def signedFloat64 (neg : Bool) (mant : ℕ) (e10 : ℤ) : GoFloat :=
  let mag : ℚ :=
    if 0 ≤ e10 then mkRat ((mant * 10 ^ e10.toNat : ℕ) : ℤ) 1
    else mkRat (mant : ℤ) (10 ^ (-e10).toNat)
  if neg then goNeg (roundFloat64 mag) else roundFloat64 mag

/-- The double of value `± mant * 2^e2`, for hexadecimal literals. -/
def signedHex64 (neg : Bool) (mant : ℕ) (e2 : ℤ) : GoFloat :=
  let mag : ℚ :=
    if 0 ≤ e2 then mkRat ((mant * 2 ^ e2.toNat : ℕ) : ℤ) 1
    else mkRat (mant : ℤ) (2 ^ (-e2).toNat)
  if neg then goNeg (roundFloat64 mag) else roundFloat64 mag

/-- A decimal literal after the sign: digits with an optional dot (at least
one digit overall) and an optional `e`/`E` exponent ending the string. -/
def parseDecTail (neg : Bool) (l : List Char) : Option GoFloat :=
  let p1 := takeDigits l
  let p2 : List Char × List Char :=
    match p1.2 with
    | '.' :: t => takeDigits t
    | r => ([], r)
  if p1.1.isEmpty && p2.1.isEmpty then none
  else
    let mant := digitsVal (p1.1 ++ p2.1)
    let fexp : ℤ := (p2.1.length : ℤ)
    match p2.2 with
    | [] => some (signedFloat64 neg mant (0 - fexp))
    | c :: t =>
      if toLowerChar c = 'e' then
        let ps := parseSign t
        let pd := takeDigits ps.2
        if pd.1.isEmpty || !pd.2.isEmpty then none
        else
          let e : ℤ := if ps.1 then -(digitsVal pd.1 : ℤ) else (digitsVal pd.1 : ℤ)
          some (signedFloat64 neg mant (e - fexp))
      else none

/-- A hexadecimal literal after the sign and `0x`: hex digits with an optional
dot (at least one digit overall) and a mandatory `p`/`P` decimal exponent. -/
def parseHexTail (neg : Bool) (l : List Char) : Option GoFloat :=
  let p1 := takeHexDigits l
  let p2 : List Char × List Char :=
    match p1.2 with
    | '.' :: t => takeHexDigits t
    | r => ([], r)
  if p1.1.isEmpty && p2.1.isEmpty then none
  else
    match p2.2 with
    | c :: t =>
      if toLowerChar c = 'p' then
        let ps := parseSign t
        let pd := takeDigits ps.2
        if pd.1.isEmpty || !pd.2.isEmpty then none
        else
          let e : ℤ :=
            (if ps.1 then -(digitsVal pd.1 : ℤ) else (digitsVal pd.1 : ℤ))
              - 4 * (p2.1.length : ℤ)
          some (signedHex64 neg (hexVal (p1.1 ++ p2.1)) e)
      else none
    | [] => none

/-- A number with an optional sign, decimal or (after `0x`) hexadecimal. -/
def parseFloatChars (l : List Char) : Option GoFloat :=
  let ps := parseSign l
  match ps.2 with
  | '0' :: x :: t =>
    if toLowerChar x = 'x' then parseHexTail ps.1 t else parseDecTail ps.1 ps.2
  | _ => parseDecTail ps.1 ps.2

/-- `strconv.ParseFloat(s, 64)` as used by the code, which discards the error:
`none` exactly on syntax errors.  Accepts the special spellings, hexadecimal
floats and digit-separating underscores; range errors still carry the returned
value (`±Inf` on overflow, a subnormal or 0 on underflow), which the code uses
since it ignores the accompanying error. -/
def goParseFloat (s : String) : Option GoFloat :=
  match parseSpecial s.data with
  | some v => some v
  | none =>
    if s.data.any fun c => c == '_' then
      if underscoreOK s.data then parseFloatChars (s.data.filter fun c => c != '_')
      else none
    else parseFloatChars s.data


/-! ### The data model and `calculatePoints` -/

/-- An item of a receipt (`Item` in `main.go`). -/
structure Item where
  shortDescription : String
  price : String
deriving DecidableEq

/-- A submitted receipt (`Receipt` in `main.go`, input fields only). -/
structure Receipt where
  retailer : String
  purchaseDate : String
  purchaseTime : String
  items : List Item
  total : String
deriving DecidableEq

/-- `total, _ := strconv.ParseFloat(receipt.Total, 64)`: the parsed total, or
`0` when the (ignored) parse failed with a syntax error. -/
def goTotalVal (r : Receipt) : GoFloat := (goParseFloat r.total).getD (.finite 0)

/-- Rule 2's test `total == float64(int(total))`.  The right-hand side is
always a finite double, so the test is false for `±Inf` and `NaN` totals on
every implementation. -/
def rule2Cond (total : GoFloat) : Bool :=
  decide (total = .finite (floatOfInt (goTrunc64 total)))

/-- Rule 3's test `math.Mod(total, 0.25) == 0`.  `0.25` is exact in binary64
and `fmod` is exact on finite doubles; `math.Mod` of `±Inf` or `NaN` is `NaN`,
which is never equal to 0. -/
def rule3Cond (total : GoFloat) : Bool :=
  match total with
  | .finite q => decide (goMathMod q (mkRat 1 4) = 0)
  | _ => false

/-- Rule 6's test `date.Day()%2 != 0`. -/
def rule6Cond (r : Receipt) : Bool := decide (goDateDay r.purchaseDate % 2 ≠ 0)

/-- Rule 7's test `time.Hour() == 14 || time.Hour() == 15`. -/
def rule7Cond (r : Receipt) : Bool :=
  decide (goTimeHour r.purchaseTime = 14 ∨ goTimeHour r.purchaseTime = 15)

/-- Rule 1's breakdown line. -/
def rule1Line (retailer : String) (pts : ℤ) : String :=
  intRepr pts ++ (" points - " ++ ("retailer name (" ++ (retailer ++ (") has " ++
    (intRepr pts ++ " alphanumeric characters")))))

/-- Rule 2's breakdown line. -/
def rule2Str : String := "50 points - total is a round dollar amount with no cents"

/-- Rule 3's breakdown line. -/
def rule3Str : String := "25 points - total is a multiple of 0.25"

/-- Rule 4's breakdown line. -/
def rule4Line (count : ℕ) (pts : ℤ) : String :=
  intRepr pts ++ (" points - " ++ (natRepr count ++ (" items (" ++
    (natRepr (count / 2) ++ " pairs @ 5 points each)"))))

/-- Rule 5's breakdown line for one qualifying item. -/
def rule5Line (pts : ℤ) (desc : String) (len : ℕ) (price totalPrice : GoFloat) : String :=
  intRepr pts ++ (" points - " ++ ("\"" ++ (desc ++ ("\" is " ++ (natRepr len ++
    (" characters (a multiple of 3), item price " ++ (goFormat2F price ++
      (" * 0.2 = " ++ (goFormat2F totalPrice ++ (" which is rounded to: " ++
        (intRepr pts ++ " points")))))))))))

/-- Rule 6's breakdown line. -/
def rule6Str : String := "6 points - purchase day is odd"

/-- Rule 7's breakdown line. -/
def rule7Str : String := "10 points - purchase time is between 2:00pm and 4:00pm"

/-- The rule-5 loop body for one item: parse the price (errors ignored), take
the byte length of the trimmed description, and when it is `≡ 0 mod 3` award
`int(math.Ceil(price * 0.2))` points with one breakdown line. -/
def rule5Item (it : Item) : ℤ × List String :=
  let price := (goParseFloat it.price).getD (.finite 0)
  let descLength := goStrLen (goTrimSpace it.shortDescription)
  if descLength % 3 = 0 then
    let totalPrice := goMul price (.finite go02)
    let itemPoints := goCeilInt totalPrice
    (itemPoints,
      [rule5Line itemPoints (goTrimSpace it.shortDescription) descLength price totalPrice])
  else (0, [])

/-- One iteration of the rule-5 `for` loop over the accumulated state
(the `points +=` wraps as Go `int` addition). -/
def rule5Body (acc : ℤ × List String) (it : Item) : ℤ × List String :=
  (wrap64 (acc.1 + (rule5Item it).1), acc.2 ++ (rule5Item it).2)

/-- `calculatePoints` from `main.go`: the seven rules applied in order to the
running `points` and `breakdown` accumulators.  Each `points +=` is a Go
`int` (64-bit) addition, so it wraps on overflow (`wrap64`). -/
def calculatePoints (r : Receipt) : ℤ × List String :=
  let retailerPoints : ℤ := (countAlphanumeric r.retailer : ℤ)
  let p1 : ℤ := wrap64 (0 + retailerPoints)
  let b1 : List String := [rule1Line r.retailer retailerPoints]
  let total : GoFloat := goTotalVal r
  let p2 := if rule2Cond total then wrap64 (p1 + 50) else p1
  let b2 := if rule2Cond total then b1 ++ [rule2Str] else b1
  let p3 := if rule3Cond total then wrap64 (p2 + 25) else p2
  let b3 := if rule3Cond total then b2 ++ [rule3Str] else b2
  let itemPoints : ℤ := (((r.items.length / 2) * 5 : ℕ) : ℤ)
  let p4 := wrap64 (p3 + itemPoints)
  let b4 := b3 ++ [rule4Line r.items.length itemPoints]
  let acc := r.items.foldl rule5Body (p4, b4)
  let p6 := if rule6Cond r then wrap64 (acc.1 + 6) else acc.1
  let b6 := if rule6Cond r then acc.2 ++ [rule6Str] else acc.2
  let p7 := if rule7Cond r then wrap64 (p6 + 10) else p6
  let b7 := if rule7Cond r then b6 ++ [rule7Str] else b6
  (p7, b7)

/-! ### `validateReceipt` -/

/-- Error message for an invalid retailer. -/
def retailerErr : String := "retailer name is invalid"

/-- Error message for an invalid purchase date. -/
def dateErr : String := "purchaseDate must be in YYYY-MM-DD format"

/-- Error message for an invalid purchase time. -/
def timeErr : String := "purchaseTime must be in HH:mm 24-hour format"

/-- Error message for an empty items array. -/
def itemsErr : String := "items array must have at least one item"

/-- Error message for an invalid item description. -/
def descErr : String := "item shortDescription is invalid"

/-- Error message for an invalid item price. -/
def priceErr : String := "item price must be a valid decimal number"

/-- Error message for an invalid total. -/
def totalErr : String := "total must be a valid decimal number"

/-- The per-item validation loop: first failing check of the first failing
item, in order (empty description, description characters, price format). -/
def firstItemError : List Item → Option String
  | [] => none
  | it :: t =>
    if it.shortDescription = "" then some descErr
    else if !descRegexMatch it.shortDescription then some descErr
    else if !moneyRegexMatch it.price then some priceErr
    else firstItemError t

/-- `validateReceipt` from `main.go`: the checks in source order, returning
the first failure (`none` means the receipt is valid). -/
def validateReceipt (r : Receipt) : Option String :=
  if r.retailer = "" then some retailerErr
  else if !retailerRegexMatch r.retailer then some retailerErr
  else if (goParseDate r.purchaseDate).isNone then some dateErr
  else if (goParseTime r.purchaseTime).isNone then some timeErr
  else if r.items.length < 1 then some itemsErr
  else
    match firstItemError r.items with
    | some e => some e
    | none => if !moneyRegexMatch r.total then some totalErr else none

/-! ### Decomposition helpers for `calculatePoints` -/

/-- Total rule-5 contribution of a list of items. -/
def sumPts : List Item → ℤ
  | [] => 0
  | it :: t => (rule5Item it).1 + sumPts t

/-- Concatenated rule-5 breakdown lines of a list of items, in item order. -/
def concatLines : List Item → List String
  | [] => []
  | it :: t => (rule5Item it).2 ++ concatLines t

/-! ### Spec-side definitions used to state corrected claims -/

/-- The character set `[A-Za-z0-9 \-&]` named by the specification for the
retailer (space, hyphen and ampersand as the only non-alphanumerics). -/
def claimRetailerChar (c : Char) : Bool :=
  c.isAlphanum || c = ' ' || c = '-' || c = '&'

/-- The character set actually accepted by the code's `^[\w\s\-\&]+$`:
ASCII alphanumerics, underscore, tab, newline, form feed, carriage return,
space, hyphen and ampersand. -/
def amendedRetailerChar (c : Char) : Bool :=
  c.isAlphanum || c = '_' || c = '\t' || c = '\n' || c = '\x0c' || c = '\r' ||
  c = ' ' || c = '-' || c = '&'

/-- The specification's reading of a valid purchase time: exactly two hour
digits (value 0–23), a colon, exactly two minute digits (value 0–59). -/
def claimTwoDigitTime (s : String) : Bool :=
  match s.data with
  | [a, b, ':', c, d] =>
    isDigitChar a && isDigitChar b && isDigitChar c && isDigitChar d &&
    decide (10 * charDigit a + charDigit b < 24) &&
    decide (10 * charDigit c + charDigit d < 60)
  | _ => false

/-- The time strings the code accepts, described by their rendering: an hour
0–23 written with one digit (only when ≤ 9) or two digits, a colon, and a
minute 0–59 always written with two digits. -/
def specTimeRendering (s : String) : Prop :=
  ∃ h m : ℕ, h ≤ 23 ∧ m ≤ 59 ∧
    ((h ≤ 9 ∧ s.data = [digitChar h, ':', digitChar (m / 10), digitChar (m % 10)]) ∨
     s.data = [digitChar (h / 10), digitChar (h % 10), ':',
       digitChar (m / 10), digitChar (m % 10)])

/-! ### Concrete receipts -/

/-- The reference receipt from the specification's end-to-end example. -/
def targetReceipt : Receipt :=
  { retailer := "Target"
    purchaseDate := "2022-01-01"
    purchaseTime := "13:01"
    items :=
      [ ⟨"Mountain Dew 12PK", "6.49"⟩,
        ⟨"Emils Cheese Pizza", "12.25"⟩,
        ⟨"Knorr Creamy Chicken", "1.26"⟩,
        ⟨"Doritos Nacho Cheese", "3.35"⟩,
        ⟨"   Klarbrunn 12-PK 12 FL OZ  ", "12.00"⟩ ]
    total := "35.35" }

/-- A valid receipt whose only item description is a single space, so it
trims to the empty string (length 0). -/
def receiptBlankDesc : Receipt :=
  { retailer := "A", purchaseDate := "2022-01-02", purchaseTime := "13:01",
    items := [⟨" ", "2.45"⟩], total := "1.01" }

/-- A receipt whose retailer is a single underscore. -/
def receiptUnderscore : Receipt :=
  { retailer := "_", purchaseDate := "2022-01-02", purchaseTime := "13:01",
    items := [⟨"ab", "1.00"⟩], total := "1.00" }

/-- A receipt whose purchase time has a one-digit hour. -/
def receiptHour9 : Receipt :=
  { retailer := "A", purchaseDate := "2022-01-02", purchaseTime := "9:30",
    items := [⟨"ab", "1.00"⟩], total := "1.01" }

/-- An invalid receipt with an unparseable total and a negative item price. -/
def receiptNegPrice : Receipt :=
  { retailer := "", purchaseDate := "", purchaseTime := "",
    items := [⟨"", "-100.00"⟩], total := "x" }

/-- A valid receipt with total `"10.00"`. -/
def receiptTotal10 : Receipt :=
  { retailer := "M", purchaseDate := "2022-01-02", purchaseTime := "13:01",
    items := [⟨"ab", "1.00"⟩], total := "10.00" }

/-- `receiptTotal10` with a different retailer but the same total string. -/
def receiptTotal10B : Receipt :=
  { retailer := "N", purchaseDate := "2022-01-02", purchaseTime := "13:01",
    items := [⟨"ab", "1.00"⟩], total := "10.00" }

/-- A valid receipt with no alphanumeric retailer characters and one item. -/
def receiptDashes : Receipt :=
  { retailer := "---", purchaseDate := "2022-01-02", purchaseTime := "13:01",
    items := [⟨"ab", "1.01"⟩], total := "1.01" }

/-- A valid receipt whose three 2·10^19 item prices overflow the 64-bit
points accumulator. -/
def receiptWrap : Receipt :=
  { retailer := "A", purchaseDate := "2022-01-02", purchaseTime := "13:01",
    items :=
      [ ⟨"abc", "20000000000000000000.00"⟩,
        ⟨"abc", "20000000000000000000.00"⟩,
        ⟨"abc", "20000000000000000000.00"⟩ ],
    total := "1.01" }

/-! ### Basic lemmas -/

theorem data_append (s t : String) : (s ++ t).data = s.data ++ t.data := by
  cases s; cases t; rfl

theorem sumLeading_append (a b : List String) :
    sumLeading (a ++ b) = sumLeading a + sumLeading b := by
  induction a with
  | nil => simp [sumLeading]
  | cons s t ih => simp [sumLeading, ih, add_assoc]

theorem wrap64_add (a b : ℤ) : wrap64 (wrap64 a + b) = wrap64 (a + b) := by
  unfold wrap64
  omega

theorem foldl_rule5 (l : List Item) (p : ℤ) (b : List String) :
    l.foldl rule5Body (p, b) =
      (l.foldl (fun a it => wrap64 (a + (rule5Item it).1)) p, b ++ concatLines l) := by
  induction l generalizing p b with
  | nil => simp [concatLines]
  | cons it t ih => simp [rule5Body, ih, concatLines]

theorem foldl_wrap (l : List Item) (s : ℤ) :
    l.foldl (fun a it => wrap64 (a + (rule5Item it).1)) (wrap64 s) =
      wrap64 (s + sumPts l) := by
  induction l generalizing s with
  | nil => simp [sumPts, wrap64]
  | cons it t ih =>
    rw [List.foldl_cons, wrap64_add, ih, sumPts, add_assoc]

theorem calculatePoints_fst (r : Receipt) :
    (calculatePoints r).1 =
      wrap64 ((countAlphanumeric r.retailer : ℤ)
        + (if rule2Cond (goTotalVal r) then 50 else 0)
        + (if rule3Cond (goTotalVal r) then 25 else 0)
        + (((r.items.length / 2) * 5 : ℕ) : ℤ)
        + sumPts r.items
        + (if rule6Cond r then 6 else 0)
        + (if rule7Cond r then 10 else 0)) := by
  unfold calculatePoints
  dsimp only
  rw [foldl_rule5]
  dsimp only
  rw [foldl_wrap]
  cases h2 : rule2Cond (goTotalVal r) <;> cases h3 : rule3Cond (goTotalVal r) <;>
    cases h6 : rule6Cond r <;> cases h7 : rule7Cond r <;>
      simp only [Bool.false_eq_true, if_true, if_false, wrap64] <;> omega

theorem calculatePoints_snd (r : Receipt) :
    (calculatePoints r).2 =
      [rule1Line r.retailer (countAlphanumeric r.retailer : ℤ)]
        ++ (if rule2Cond (goTotalVal r) then [rule2Str] else [])
        ++ (if rule3Cond (goTotalVal r) then [rule3Str] else [])
        ++ [rule4Line r.items.length (((r.items.length / 2) * 5 : ℕ) : ℤ)]
        ++ concatLines r.items
        ++ (if rule6Cond r then [rule6Str] else [])
        ++ (if rule7Cond r then [rule7Str] else []) := by
  unfold calculatePoints
  dsimp only
  rw [foldl_rule5]
  cases h2 : rule2Cond (goTotalVal r) <;> cases h3 : rule3Cond (goTotalVal r) <;>
    cases h6 : rule6Cond r <;> cases h7 : rule7Cond r <;>
      simp [h2, h3, h6, h7, List.append_assoc]

/-! ### Digit-string round trips -/

theorem digitChar_toNat {n : ℕ} (h : n < 10) : (digitChar n).toNat = 48 + n := by
  interval_cases n <;> decide

theorem isDigitChar_digitChar {n : ℕ} (h : n < 10) : isDigitChar (digitChar n) = true := by
  interval_cases n <;> decide

theorem digitChar_ne_dash {n : ℕ} (h : n < 10) : digitChar n ≠ '-' := by
  interval_cases n <;> decide

theorem charDigit_digitChar {n : ℕ} (h : n < 10) : charDigit (digitChar n) = n := by
  rw [charDigit, digitChar_toNat h]; omega

theorem natReprChars_all_digits :
    ∀ fuel n, ∀ c ∈ natReprChars fuel n, isDigitChar c = true := by
  intro fuel
  induction fuel with
  | zero => intro n c hc; simp [natReprChars] at hc
  | succ fuel ih =>
    intro n c hc
    rw [natReprChars] at hc
    by_cases h : n < 10
    · simp [h] at hc
      exact hc ▸ isDigitChar_digitChar h
    · simp [h] at hc
      rcases hc with hc | hc
      · exact ih _ c hc
      · exact hc ▸ isDigitChar_digitChar (Nat.mod_lt n (by norm_num))

theorem natReprChars_ne_nil {fuel n : ℕ} (h : n < fuel) : natReprChars fuel n ≠ [] := by
  cases fuel with
  | zero => omega
  | succ fuel =>
    rw [natReprChars]
    by_cases h10 : n < 10 <;> simp [h10]

theorem digitsVal_append_digit (l : List Char) (c : Char) :
    digitsVal (l ++ [c]) = 10 * digitsVal l + (c.toNat - 48) := by
  simp [digitsVal, List.foldl_append]

theorem natReprChars_val : ∀ fuel n, n < fuel → digitsVal (natReprChars fuel n) = n := by
  intro fuel
  induction fuel with
  | zero => omega
  | succ fuel ih =>
    intro n h
    rw [natReprChars]
    by_cases h10 : n < 10
    · simp only [h10, if_true]
      simp [digitsVal, digitChar_toNat h10]
    · have hd : n / 10 < fuel := by omega
      simp only [h10, if_false]
      rw [digitsVal_append_digit, ih _ hd, digitChar_toNat (Nat.mod_lt n (by norm_num))]
      omega

theorem takeDigits_append_nondigit (l : List Char) (c : Char) (t : List Char)
    (hl : ∀ x ∈ l, isDigitChar x = true) (hc : isDigitChar c = false) :
    takeDigits (l ++ c :: t) = (l, c :: t) := by
  induction l with
  | nil => simp [takeDigits, hc]
  | cons x xs ih =>
    have hx : isDigitChar x = true := hl x (by simp)
    simp only [List.cons_append, takeDigits, hx, if_true]
    have := ih fun y hy => hl y (by simp [hy])
    simp only [List.append_eq] at this ⊢
    rw [this]

theorem leadingPoints_of_data (s : String) (n : ℕ) (t : List Char)
    (h : s.data = natReprChars (n + 1) n ++ ' ' :: t) :
    leadingPoints s = (n : ℤ) := by
  obtain ⟨c, rest, hcr⟩ : ∃ c rest, natReprChars (n + 1) n = c :: rest := by
    cases hnr : natReprChars (n + 1) n with
    | nil => exact absurd hnr (natReprChars_ne_nil (by omega))
    | cons c rest => exact ⟨c, rest, rfl⟩
  have hcd : isDigitChar c = true := natReprChars_all_digits _ _ c (by rw [hcr]; simp)
  have hcne : ¬ c = '-' := by
    intro he; rw [he] at hcd; exact absurd hcd (by decide)
  have hd : s.data = c :: (rest ++ ' ' :: t) := by rw [h, hcr]; simp
  have htd : takeDigits (c :: (rest ++ ' ' :: t)) = (c :: rest, ' ' :: t) := by
    have := takeDigits_append_nondigit (c :: rest) ' ' t
      (fun x hx => natReprChars_all_digits _ _ x (by rw [hcr]; exact hx)) (by decide)
    simpa using this
  simp only [leadingPoints, hd, hcne, if_false, htd]
  rw [← hcr, natReprChars_val _ _ (by omega)]

theorem leadingPoints_neg_data (s : String) (n : ℕ) (t : List Char)
    (h : s.data = '-' :: (natReprChars (n + 1) n ++ ' ' :: t)) :
    leadingPoints s = -(n : ℤ) := by
  have htd : takeDigits (natReprChars (n + 1) n ++ ' ' :: t)
      = (natReprChars (n + 1) n, ' ' :: t) :=
    takeDigits_append_nondigit _ ' ' t
      (fun x hx => natReprChars_all_digits _ _ x hx) (by decide)
  rw [leadingPoints, h]
  dsimp only
  rw [if_pos rfl, htd]
  rw [natReprChars_val _ _ (by omega)]

theorem leadingPoints_intRepr (c : ℤ) (rest : String) :
    leadingPoints (intRepr c ++ (" points - " ++ rest)) = c := by
  by_cases h : c < 0
  · have hdata : (intRepr c ++ (" points - " ++ rest)).data
        = '-' :: (natReprChars ((-c).toNat + 1) (-c).toNat ++
            ' ' :: (['p', 'o', 'i', 'n', 't', 's', ' ', '-', ' '] ++ rest.data)) := by
      rw [intRepr, if_pos h, data_append, data_append, data_append]
      show ('-' :: []) ++ (natReprChars _ _ ++ _) = _
      simp
    rw [leadingPoints_neg_data _ (-c).toNat _ hdata]
    omega
  · have hir : intRepr c = natRepr c.toNat := by
      rw [intRepr, if_neg h]
    have hdata : (intRepr c ++ (" points - " ++ rest)).data
        = natReprChars (c.toNat + 1) c.toNat ++
          ' ' :: (['p', 'o', 'i', 'n', 't', 's', ' ', '-', ' '] ++ rest.data) := by
      rw [hir, data_append, data_append]
      show natReprChars _ _ ++ _ = _
      simp
    rw [leadingPoints_of_data _ c.toNat _ hdata, Int.toNat_of_nonneg (by omega)]

theorem leadingPoints_rule1Line (ret : String) (c : ℤ) :
    leadingPoints (rule1Line ret c) = c := leadingPoints_intRepr c _

theorem leadingPoints_rule4Line (k : ℕ) (c : ℤ) :
    leadingPoints (rule4Line k c) = c := leadingPoints_intRepr c _

theorem leadingPoints_rule5Line (c : ℤ) (d : String) (l : ℕ) (p tp : GoFloat) :
    leadingPoints (rule5Line c d l p tp) = c := leadingPoints_intRepr c _

/-! ### Summing the leading tokens of the breakdown -/

theorem leadingPoints_rule2Str : leadingPoints rule2Str = 50 := by decide

theorem leadingPoints_rule3Str : leadingPoints rule3Str = 25 := by decide

theorem leadingPoints_rule6Str : leadingPoints rule6Str = 6 := by decide

theorem leadingPoints_rule7Str : leadingPoints rule7Str = 10 := by decide

theorem sumLeading_rule5Item (it : Item) :
    sumLeading (rule5Item it).2 = (rule5Item it).1 := by
  rw [rule5Item]
  dsimp only
  split
  · rw [sumLeading, sumLeading, leadingPoints_rule5Line, add_zero]
  · rfl

theorem sumLeading_concatLines (l : List Item) :
    sumLeading (concatLines l) = sumPts l := by
  induction l with
  | nil => rfl
  | cons it t ih =>
    rw [concatLines, sumPts, sumLeading_append, ih, sumLeading_rule5Item]

/-! ### The retailer character class and validation messages -/

theorem data_eq_nil (s : String) : s.data = [] ↔ s = "" := by
  constructor
  · intro h
    exact String.ext (by rw [h])
  · intro h
    rw [h]

theorem retailerClass_eq_amended (c : Char) :
    (isWordChar c || goRegexSpace c || c = '-' || c = '&') = amendedRetailerChar c := by
  rw [Bool.eq_iff_iff]
  simp only [isWordChar, goRegexSpace, amendedRetailerChar, Bool.or_eq_true, decide_eq_true_eq]
  tauto

theorem firstItemError_msgs :
    ∀ (l : List Item) (e : String), firstItemError l = some e → e = descErr ∨ e = priceErr := by
  intro l
  induction l with
  | nil => intro e h; simp [firstItemError] at h
  | cons x t ih =>
    intro e h
    rw [firstItemError] at h
    split_ifs at h with h1 h2 h3
    · exact Or.inl (Option.some_injective _ h).symm
    · exact Or.inl (Option.some_injective _ h).symm
    · exact Or.inr (Option.some_injective _ h).symm
    · exact ih e h

theorem tail_messages (r : Receipt) (e : String)
    (h : (if r.items.length < 1 then some itemsErr
          else
            match firstItemError r.items with
            | some e' => some e'
            | none => if !moneyRegexMatch r.total then some totalErr else none) = some e) :
    e = itemsErr ∨ e = descErr ∨ e = priceErr ∨ e = totalErr := by
  by_cases h1 : r.items.length < 1
  · rw [if_pos h1] at h
    exact Or.inl (Option.some_injective _ h).symm
  rw [if_neg h1] at h
  cases hfi : firstItemError r.items with
  | some e' =>
    rw [hfi] at h
    dsimp only at h
    have he : e = e' := (Option.some_injective _ h).symm
    rcases firstItemError_msgs r.items e' hfi with h' | h'
    · exact Or.inr (Or.inl (he.trans h'))
    · exact Or.inr (Or.inr (Or.inl (he.trans h')))
  | none =>
    rw [hfi] at h
    dsimp only at h
    by_cases h2 : (!moneyRegexMatch r.total) = true
    · rw [if_pos h2] at h
      exact Or.inr (Or.inr (Or.inr (Option.some_injective _ h).symm))
    · rw [if_neg h2] at h
      exact absurd h (by simp)

/-! ### Characterization of the accepted time strings -/

theorem digitChar_charDigit_id (c : Char) (h : isDigitChar c = true) :
    digitChar (charDigit c) = c := by
  rw [isDigitChar, Bool.and_eq_true, decide_eq_true_eq, decide_eq_true_eq] at h
  rw [digitChar, charDigit]
  have h48 : 48 + (c.toNat - 48) = c.toNat := by omega
  rw [h48, Char.ofNat_toNat]

theorem charDigit_le_9 (c : Char) (h : isDigitChar c = true) : charDigit c ≤ 9 := by
  rw [isDigitChar, Bool.and_eq_true, decide_eq_true_eq, decide_eq_true_eq] at h
  rw [charDigit]
  omega

theorem goParseTime_isSome_iff (s : String) :
    (goParseTime s).isSome = true ↔ specTimeRendering s := by
  constructor
  · intro h
    rw [goParseTime] at h
    split at h
    next h1 m1 m2 heq =>
      dsimp only at h
      by_cases hd : (isDigitChar h1 && isDigitChar m1 && isDigitChar m2) = true
      case neg => rw [if_neg hd] at h; simp at h
      rw [if_pos hd] at h
      rw [Bool.and_eq_true, Bool.and_eq_true] at hd
      by_cases hr : charDigit h1 < 24 ∧ 10 * charDigit m1 + charDigit m2 < 60
      case neg => rw [if_neg hr] at h; simp at h
      refine ⟨charDigit h1, 10 * charDigit m1 + charDigit m2, by omega, by omega,
        Or.inl ⟨charDigit_le_9 h1 hd.1.1, ?_⟩⟩
      rw [heq]
      have e1 : digitChar (charDigit h1) = h1 := digitChar_charDigit_id h1 hd.1.1
      have e2 : (10 * charDigit m1 + charDigit m2) / 10 = charDigit m1 := by
        have := charDigit_le_9 m2 hd.2
        omega
      have e3 : (10 * charDigit m1 + charDigit m2) % 10 = charDigit m2 := by
        have := charDigit_le_9 m2 hd.2
        omega
      rw [e1, e2, e3, digitChar_charDigit_id m1 hd.1.2, digitChar_charDigit_id m2 hd.2]
    next h1 h2 m1 m2 heq =>
      dsimp only at h
      by_cases hd : (isDigitChar h1 && isDigitChar h2 && isDigitChar m1 && isDigitChar m2) = true
      case neg => rw [if_neg hd] at h; simp at h
      rw [if_pos hd] at h
      rw [Bool.and_eq_true, Bool.and_eq_true, Bool.and_eq_true] at hd
      by_cases hr : 10 * charDigit h1 + charDigit h2 < 24 ∧
          10 * charDigit m1 + charDigit m2 < 60
      case neg => rw [if_neg hr] at h; simp at h
      refine ⟨10 * charDigit h1 + charDigit h2, 10 * charDigit m1 + charDigit m2,
        by omega, by omega, Or.inr ?_⟩
      rw [heq]
      have hb2 := charDigit_le_9 h2 hd.1.1.2
      have hm2 := charDigit_le_9 m2 hd.2
      have e1 : (10 * charDigit h1 + charDigit h2) / 10 = charDigit h1 := by omega
      have e2 : (10 * charDigit h1 + charDigit h2) % 10 = charDigit h2 := by omega
      have e3 : (10 * charDigit m1 + charDigit m2) / 10 = charDigit m1 := by omega
      have e4 : (10 * charDigit m1 + charDigit m2) % 10 = charDigit m2 := by omega
      rw [e1, e2, e3, e4, digitChar_charDigit_id h1 hd.1.1.1,
        digitChar_charDigit_id h2 hd.1.1.2, digitChar_charDigit_id m1 hd.1.2,
        digitChar_charDigit_id m2 hd.2]
    next => simp at h
  · rintro ⟨h, m, hh, hm, hcase⟩
    rcases hcase with ⟨h9, hdata⟩ | hdata
    · rw [goParseTime, hdata]
      have d1 : isDigitChar (digitChar h) = true := isDigitChar_digitChar (by omega)
      have d2 : isDigitChar (digitChar (m / 10)) = true := isDigitChar_digitChar (by omega)
      have d3 : isDigitChar (digitChar (m % 10)) = true := isDigitChar_digitChar (by omega)
      have c1 : charDigit (digitChar h) = h := charDigit_digitChar (by omega)
      have c2 : charDigit (digitChar (m / 10)) = m / 10 := charDigit_digitChar (by omega)
      have c3 : charDigit (digitChar (m % 10)) = m % 10 := charDigit_digitChar (by omega)
      simp only [d1, d2, d3, c1, c2, c3, Bool.and_self, if_true]
      rw [if_pos (by omega)]
      rfl
    · rw [goParseTime, hdata]
      have d1 : isDigitChar (digitChar (h / 10)) = true := isDigitChar_digitChar (by omega)
      have d2 : isDigitChar (digitChar (h % 10)) = true := isDigitChar_digitChar (by omega)
      have d3 : isDigitChar (digitChar (m / 10)) = true := isDigitChar_digitChar (by omega)
      have d4 : isDigitChar (digitChar (m % 10)) = true := isDigitChar_digitChar (by omega)
      have c1 : charDigit (digitChar (h / 10)) = h / 10 := charDigit_digitChar (by omega)
      have c2 : charDigit (digitChar (h % 10)) = h % 10 := charDigit_digitChar (by omega)
      have c3 : charDigit (digitChar (m / 10)) = m / 10 := charDigit_digitChar (by omega)
      have c4 : charDigit (digitChar (m % 10)) = m % 10 := charDigit_digitChar (by omega)
      simp only [d1, d2, d3, d4, c1, c2, c3, c4, Bool.and_self, if_true]
      rw [if_pos (by omega)]
      rfl

/-! ### The claims -/

/-- C1: for the reference receipt (retailer "Target", the five listed items,
total "35.35", purchase date 2022-01-01, purchase time 13:01),
`calculatePoints` returns exactly 28 points, composed of 6 (retailer
alphanumerics), 10 (2 pairs of items), 3 ("Emils Cheese Pizza", 18
characters), 3 ("Klarbrunn 12-PK 12 FL OZ" after trimming, 24 characters)
and 6 (odd day), with no round-dollar, quarter-multiple, or time bonus. -/
theorem c1_reference_receipt_points :
    calculatePoints targetReceipt =
      (28,
        [ "6 points - retailer name (Target) has 6 alphanumeric characters",
          "10 points - 5 items (2 pairs @ 5 points each)",
          "3 points - \"Emils Cheese Pizza\" is 18 characters (a multiple of 3), item price 12.25 * 0.2 = 2.45 which is rounded to: 3 points",
          "3 points - \"Klarbrunn 12-PK 12 FL OZ\" is 24 characters (a multiple of 3), item price 12.00 * 0.2 = 2.40 which is rounded to: 3 points",
          "6 points - purchase day is odd" ]) := by decide

/-- C2 counterexample: the receipt `receiptWrap` passes validation, yet its
three 2·10^19 item prices overflow the 64-bit `points` accumulator: the
program returns -6446744073709551610 while the leading tokens of the
breakdown lines sum to 12000000000000000006, so the points do not equal the
token sum. -/
theorem c2_counterexample_int64_wrap :
    validateReceipt receiptWrap = none ∧
    (calculatePoints receiptWrap).1 = -6446744073709551610 ∧
    sumLeading (calculatePoints receiptWrap).2 = 12000000000000000006 ∧
    (calculatePoints receiptWrap).1 ≠ sumLeading (calculatePoints receiptWrap).2 := by
  refine ⟨by decide, by decide, by decide, by decide⟩

/-- C2 amended: for every receipt that passes `validateReceipt`, the integer
returned by `calculatePoints` equals the sum of the integers parsed from the
leading `"{n} points"` token of each breakdown line reduced into the signed
64-bit range — the `points` accumulator is a Go `int` and wraps at 2^64,
while each breakdown line records its rule's unwrapped contribution. -/
theorem c2_points_eq_wrapped_sum (r : Receipt) (h : validateReceipt r = none) :
    (calculatePoints r).1 = wrap64 (sumLeading (calculatePoints r).2) := by
  rw [calculatePoints_fst, calculatePoints_snd]
  rw [sumLeading_append, sumLeading_append, sumLeading_append, sumLeading_append,
    sumLeading_append, sumLeading_append]
  have hb1 : sumLeading [rule1Line r.retailer (countAlphanumeric r.retailer : ℤ)]
      = (countAlphanumeric r.retailer : ℤ) := by
    rw [sumLeading, sumLeading, leadingPoints_rule1Line, add_zero]
  have hb4 : sumLeading [rule4Line r.items.length (((r.items.length / 2) * 5 : ℕ) : ℤ)]
      = (((r.items.length / 2) * 5 : ℕ) : ℤ) := by
    rw [sumLeading, sumLeading, leadingPoints_rule4Line, add_zero]
  rw [hb1, hb4, sumLeading_concatLines]
  cases h2 : rule2Cond (goTotalVal r) <;> cases h3 : rule3Cond (goTotalVal r) <;>
    cases h6 : rule6Cond r <;> cases h7 : rule7Cond r <;>
      simp [sumLeading, leadingPoints_rule2Str, leadingPoints_rule3Str,
        leadingPoints_rule6Str, leadingPoints_rule7Str]

/-- C2 witness at the reference receipt. -/
theorem c2_witness :
    (calculatePoints targetReceipt).1 = wrap64 (sumLeading (calculatePoints targetReceipt).2) :=
  c2_points_eq_wrapped_sum targetReceipt (by decide)

/-- C3 counterexample: the receipt `receiptBlankDesc` passes validation, its
only item's description trims to length 0, yet rule 5 still awards
`ceil(2.45 * 0.2) = 1` point and emits a breakdown line, contradicting the
claim that a description trimming to length 0 earns nothing. -/
theorem c3_counterexample_blank_desc :
    validateReceipt receiptBlankDesc = none ∧
    goStrLen (goTrimSpace " ") = 0 ∧
    calculatePoints receiptBlankDesc =
      (2,
        [ "1 points - retailer name (A) has 1 alphanumeric characters",
          "0 points - 1 items (0 pairs @ 5 points each)",
          "1 points - \"\" is 0 characters (a multiple of 3), item price 2.45 * 0.2 = 0.49 which is rounded to: 1 points" ]) := by
  refine ⟨by decide, by decide, by decide⟩

/-- C3 amended: for every validated receipt and each of its items
independently, `calculatePoints` adds `int(math.Ceil(price * 0.2))` points
(one 64-bit-wrapping accumulator step) and emits one rule-5 breakdown line
exactly when the byte length of the item's trimmed description is divisible
by 3 — including length 0, so a description that trims to empty still earns;
price "2.45" yields 1 point and price "12.25" yields 3 points for a
qualifying item. -/
theorem c3_rule5_mod3_amended (r : Receipt) (h : validateReceipt r = none)
    (it : Item) (hit : it ∈ r.items) :
    (calculatePoints r).1 =
      wrap64 ((countAlphanumeric r.retailer : ℤ)
        + (if rule2Cond (goTotalVal r) then 50 else 0)
        + (if rule3Cond (goTotalVal r) then 25 else 0)
        + (((r.items.length / 2) * 5 : ℕ) : ℤ)
        + sumPts r.items
        + (if rule6Cond r then 6 else 0)
        + (if rule7Cond r then 10 else 0)) ∧
    rule5Item it =
      (if goStrLen (goTrimSpace it.shortDescription) % 3 = 0 then
        (goCeilInt (goMul ((goParseFloat it.price).getD (.finite 0)) (.finite go02)),
          [rule5Line
            (goCeilInt (goMul ((goParseFloat it.price).getD (.finite 0)) (.finite go02)))
            (goTrimSpace it.shortDescription) (goStrLen (goTrimSpace it.shortDescription))
            ((goParseFloat it.price).getD (.finite 0))
            (goMul ((goParseFloat it.price).getD (.finite 0)) (.finite go02))])
        else (0, [])) ∧
    (rule5Item ⟨"abc", "2.45"⟩).1 = 1 ∧ (rule5Item ⟨"abc", "12.25"⟩).1 = 3 := by
  refine ⟨calculatePoints_fst r, ?_, by decide, by decide⟩
  rw [rule5Item]

/-- C3 witness at `receiptBlankDesc` and its single item. -/
theorem c3_witness :
    (calculatePoints receiptBlankDesc).1 =
      wrap64 ((countAlphanumeric receiptBlankDesc.retailer : ℤ)
        + (if rule2Cond (goTotalVal receiptBlankDesc) then 50 else 0)
        + (if rule3Cond (goTotalVal receiptBlankDesc) then 25 else 0)
        + (((receiptBlankDesc.items.length / 2) * 5 : ℕ) : ℤ)
        + sumPts receiptBlankDesc.items
        + (if rule6Cond receiptBlankDesc then 6 else 0)
        + (if rule7Cond receiptBlankDesc then 10 else 0)) ∧
    rule5Item ⟨" ", "2.45"⟩ =
      (if goStrLen (goTrimSpace (Item.mk " " "2.45").shortDescription) % 3 = 0 then
        (goCeilInt (goMul ((goParseFloat (Item.mk " " "2.45").price).getD (.finite 0))
            (.finite go02)),
          [rule5Line
            (goCeilInt (goMul ((goParseFloat (Item.mk " " "2.45").price).getD (.finite 0))
              (.finite go02)))
            (goTrimSpace (Item.mk " " "2.45").shortDescription)
            (goStrLen (goTrimSpace (Item.mk " " "2.45").shortDescription))
            ((goParseFloat (Item.mk " " "2.45").price).getD (.finite 0))
            (goMul ((goParseFloat (Item.mk " " "2.45").price).getD (.finite 0))
              (.finite go02))])
        else (0, [])) ∧
    (rule5Item ⟨"abc", "2.45"⟩).1 = 1 ∧ (rule5Item ⟨"abc", "12.25"⟩).1 = 3 :=
  c3_rule5_mod3_amended receiptBlankDesc (by decide) ⟨" ", "2.45"⟩ (by decide)

/-- C4: for a validated receipt with total "10.00" `calculatePoints` awards
both the round-dollar rule (+50) and the quarter-multiple rule (+25); for
total "35.35" it awards neither; and both rules depend only on the value
obtained by parsing the total string to a double (`goTotalVal`), with no
re-derivation from the string. -/
theorem c4_total_rules_parsed_value (r r' : Receipt) (h : goTotalVal r = goTotalVal r') :
    validateReceipt receiptTotal10 = none ∧
    rule2Str ∈ (calculatePoints receiptTotal10).2 ∧
    rule3Str ∈ (calculatePoints receiptTotal10).2 ∧
    (calculatePoints receiptTotal10).1 = 76 ∧
    validateReceipt targetReceipt = none ∧
    rule2Str ∉ (calculatePoints targetReceipt).2 ∧
    rule3Str ∉ (calculatePoints targetReceipt).2 ∧
    rule2Cond (goTotalVal r) = rule2Cond (goTotalVal r') ∧
    rule3Cond (goTotalVal r) = rule3Cond (goTotalVal r') := by
  refine ⟨by decide, by decide, by decide, by decide, by decide, by decide, by decide,
    by rw [h], by rw [h]⟩

/-- C4 witness at two receipts sharing the total string "10.00". -/
theorem c4_witness :
    validateReceipt receiptTotal10 = none ∧
    rule2Str ∈ (calculatePoints receiptTotal10).2 ∧
    rule3Str ∈ (calculatePoints receiptTotal10).2 ∧
    (calculatePoints receiptTotal10).1 = 76 ∧
    validateReceipt targetReceipt = none ∧
    rule2Str ∉ (calculatePoints targetReceipt).2 ∧
    rule3Str ∉ (calculatePoints targetReceipt).2 ∧
    rule2Cond (goTotalVal receiptTotal10) = rule2Cond (goTotalVal receiptTotal10B) ∧
    rule3Cond (goTotalVal receiptTotal10) = rule3Cond (goTotalVal receiptTotal10B) :=
  c4_total_rules_parsed_value receiptTotal10 receiptTotal10B (by decide)

/-- C5 counterexample: the retailer "_" contains a character outside the
claimed set `[A-Za-z0-9 \-&]`, yet the receipt passes `validateReceipt`
(Go's `\w` also accepts the underscore). -/
theorem c5_counterexample_underscore :
    validateReceipt receiptUnderscore = none ∧
    receiptUnderscore.retailer = "_" ∧
    ("_".data.all claimRetailerChar) = false := by
  refine ⟨by decide, rfl, by decide⟩

/-- C5 amended: `validateReceipt` returns the invalid-retailer error exactly
when the retailer is empty or contains a character outside the set actually
accepted by `^[\w\s\-\&]+$`: ASCII alphanumerics, underscore, tab, newline,
form feed, carriage return, space, hyphen and ampersand. -/
theorem c5_retailer_check_amended (r : Receipt) :
    validateReceipt r = some retailerErr ↔
      (r.retailer = "" ∨ ∃ c ∈ r.retailer.data, amendedRetailerChar c = false) := by
  constructor
  · intro h
    by_cases h1 : r.retailer = ""
    · exact Or.inl h1
    right
    rw [validateReceipt, if_neg h1] at h
    cases h2 : retailerRegexMatch r.retailer
    · rw [retailerRegexMatch] at h2
      by_cases hne : r.retailer.data.isEmpty
      · exact absurd ((data_eq_nil _).mp (List.isEmpty_iff.mp hne)) h1
      · have hnt : (!r.retailer.data.isEmpty) = true := by simp [hne]
        rw [hnt, Bool.true_and] at h2
        obtain ⟨c, hc, hcf⟩ := List.all_eq_false.mp h2
        refine ⟨c, hc, ?_⟩
        rw [← retailerClass_eq_amended]
        simpa using hcf
    · exfalso
      rw [h2] at h
      simp only [Bool.not_true, Bool.false_eq_true, if_false] at h
      by_cases hd : (goParseDate r.purchaseDate).isNone
      · rw [if_pos hd] at h
        exact absurd (Option.some_injective _ h) (by decide)
      rw [if_neg hd] at h
      by_cases ht : (goParseTime r.purchaseTime).isNone
      · rw [if_pos ht] at h
        exact absurd (Option.some_injective _ h) (by decide)
      rw [if_neg ht] at h
      rcases tail_messages r _ h with h' | h' | h' | h' <;> exact absurd h' (by decide)
  · rintro (h1 | ⟨c, hc, hbad⟩)
    · rw [validateReceipt, if_pos h1]
    · rw [validateReceipt]
      by_cases h1 : r.retailer = ""
      · rw [if_pos h1]
      rw [if_neg h1]
      have h2 : retailerRegexMatch r.retailer = false := by
        rw [retailerRegexMatch]
        have hall : (r.retailer.data.all fun c =>
            isWordChar c || goRegexSpace c || c = '-' || c = '&') = false :=
          List.all_eq_false.mpr ⟨c, hc, by rw [retailerClass_eq_amended]; simp [hbad]⟩
        rw [hall, Bool.and_false]
      rw [h2]
      rfl

/-- C6: `validateReceipt` fails fast on the first violated rule in the order
retailer, purchaseDate, purchaseTime, empty items, then per item description
before price, then total, each with a distinct reason; in particular it
rejects an empty retailer, a retailer containing "$", date "2022-13-01",
time "25:00", an empty items list, an item price "6.5" and a total "35". -/
theorem c6_validation_order_and_rejections :
    validateReceipt { receiptTotal10 with retailer := "" } = some retailerErr ∧
    validateReceipt { receiptTotal10 with retailer := "$" } = some retailerErr ∧
    validateReceipt { receiptTotal10 with purchaseDate := "2022-13-01" } = some dateErr ∧
    validateReceipt { receiptTotal10 with purchaseTime := "25:00" } = some timeErr ∧
    validateReceipt { receiptTotal10 with items := [] } = some itemsErr ∧
    validateReceipt { receiptTotal10 with items := [⟨"ab", "6.5"⟩] } = some priceErr ∧
    validateReceipt { receiptTotal10 with total := "35" } = some totalErr ∧
    validateReceipt { receiptTotal10 with items := [⟨"$", "1.00"⟩] } = some descErr ∧
    validateReceipt { receiptTotal10 with retailer := "$", purchaseDate := "2022-13-01" }
      = some retailerErr ∧
    validateReceipt { receiptTotal10 with purchaseDate := "2022-13-01", purchaseTime := "25:00" }
      = some dateErr ∧
    validateReceipt { receiptTotal10 with purchaseTime := "25:00", items := [] }
      = some timeErr ∧
    validateReceipt { receiptTotal10 with items := ([] : List Item), total := "35" }
      = some itemsErr ∧
    validateReceipt { receiptTotal10 with items := [⟨"$", "6.5"⟩], total := "35" }
      = some descErr ∧
    validateReceipt { receiptTotal10 with items := [⟨"ab", "6.5"⟩], total := "35" }
      = some priceErr ∧
    [retailerErr, dateErr, timeErr, itemsErr, descErr, priceErr, totalErr].Nodup := by
  decide

/-- C7: for every validated receipt the breakdown consists of the rule-1 line
and the rule-4 line unconditionally (even with 0 points), the rule-2/3/6/7
lines only when their condition holds, and the rule-5 lines (at most one per
item, in item order) between the rule-4 and rule-6 lines — i.e. the lines
appear in rule order 1 through 7; a receipt with zero-point rules 1 and 4
still gets both lines. -/
theorem c7_breakdown_structure (r : Receipt) (h : validateReceipt r = none)
    (it : Item) (hit : it ∈ r.items) :
    (calculatePoints r).2 =
      [rule1Line r.retailer (countAlphanumeric r.retailer : ℤ)]
        ++ (if rule2Cond (goTotalVal r) then [rule2Str] else [])
        ++ (if rule3Cond (goTotalVal r) then [rule3Str] else [])
        ++ [rule4Line r.items.length (((r.items.length / 2) * 5 : ℕ) : ℤ)]
        ++ concatLines r.items
        ++ (if rule6Cond r then [rule6Str] else [])
        ++ (if rule7Cond r then [rule7Str] else []) ∧
    (rule5Item it).2.length =
      (if goStrLen (goTrimSpace it.shortDescription) % 3 = 0 then 1 else 0) ∧
    validateReceipt receiptDashes = none ∧
    (calculatePoints receiptDashes).2 =
      [ "0 points - retailer name (---) has 0 alphanumeric characters",
        "0 points - 1 items (0 pairs @ 5 points each)" ] := by
  refine ⟨calculatePoints_snd r, ?_, by decide, by decide⟩
  rw [rule5Item]
  dsimp only
  split <;> rfl

/-- C7 witness at the reference receipt and its first item. -/
theorem c7_witness :
    (calculatePoints targetReceipt).2 =
      [rule1Line targetReceipt.retailer (countAlphanumeric targetReceipt.retailer : ℤ)]
        ++ (if rule2Cond (goTotalVal targetReceipt) then [rule2Str] else [])
        ++ (if rule3Cond (goTotalVal targetReceipt) then [rule3Str] else [])
        ++ [rule4Line targetReceipt.items.length
              (((targetReceipt.items.length / 2) * 5 : ℕ) : ℤ)]
        ++ concatLines targetReceipt.items
        ++ (if rule6Cond targetReceipt then [rule6Str] else [])
        ++ (if rule7Cond targetReceipt then [rule7Str] else []) ∧
    (rule5Item ⟨"Mountain Dew 12PK", "6.49"⟩).2.length =
      (if goStrLen (goTrimSpace (Item.mk "Mountain Dew 12PK" "6.49").shortDescription) % 3 = 0
        then 1 else 0) ∧
    validateReceipt receiptDashes = none ∧
    (calculatePoints receiptDashes).2 =
      [ "0 points - retailer name (---) has 0 alphanumeric characters",
        "0 points - 1 items (0 pairs @ 5 points each)" ] :=
  c7_breakdown_structure targetReceipt (by decide) ⟨"Mountain Dew 12PK", "6.49"⟩ (by decide)

/-- C8 counterexample: the purchase time "9:30" is not in two-digit HH:MM
format, yet the receipt passes `validateReceipt` (Go's hour field accepts one
digit), refuting the claim that no string outside that format passes. -/
theorem c8_counterexample_one_digit_hour :
    validateReceipt receiptHour9 = none ∧
    receiptHour9.purchaseTime = "9:30" ∧
    claimTwoDigitTime "9:30" = false := by
  refine ⟨by decide, rfl, by decide⟩

/-- C8 amended: once the retailer and date checks pass, `validateReceipt`
returns the invalid-time error exactly when the purchase time fails to parse;
and a time string parses exactly when it renders an hour 0–23 with one digit
(only when ≤ 9) or two digits, a colon, and a two-digit minute 0–59. -/
theorem c8_time_check_amended (r : Receipt) (h1 : r.retailer ≠ "")
    (h2 : retailerRegexMatch r.retailer = true)
    (h3 : (goParseDate r.purchaseDate).isSome = true) :
    (validateReceipt r = some timeErr ↔ goParseTime r.purchaseTime = none) ∧
    ((goParseTime r.purchaseTime).isSome = true ↔ specTimeRendering r.purchaseTime) := by
  refine ⟨?_, goParseTime_isSome_iff _⟩
  rw [validateReceipt, if_neg h1, h2]
  simp only [Bool.not_true, Bool.false_eq_true, if_false]
  obtain ⟨v, hv⟩ := Option.isSome_iff_exists.mp h3
  rw [hv]
  simp only [Option.isNone_some, Bool.false_eq_true, if_false]
  constructor
  · intro h
    cases hpt : goParseTime r.purchaseTime with
    | none => rfl
    | some w =>
      rw [hpt] at h
      simp only [Option.isNone_some, Bool.false_eq_true, if_false] at h
      exfalso
      rcases tail_messages r _ h with h' | h' | h' | h' <;> exact absurd h' (by decide)
  · intro h
    rw [h]
    rfl

/-- C8 witness at `receiptHour9`. -/
theorem c8_witness :
    (validateReceipt receiptHour9 = some timeErr ↔
      goParseTime receiptHour9.purchaseTime = none) ∧
    ((goParseTime receiptHour9.purchaseTime).isSome = true ↔
      specTimeRendering receiptHour9.purchaseTime) :=
  c8_time_check_amended receiptHour9 (by decide) (by decide) (by decide)

/-- C9: `calculatePoints` is deterministic — two calls on structurally
identical validated receipts return the same points and the same breakdown
sequence. -/
theorem c9_deterministic (r1 r2 : Receipt) (hv : validateReceipt r1 = none) (h : r1 = r2) :
    calculatePoints r1 = calculatePoints r2 ∧
    (calculatePoints r1).1 = (calculatePoints r2).1 ∧
    (calculatePoints r1).2 = (calculatePoints r2).2 := by
  subst h
  exact ⟨rfl, rfl, rfl⟩

/-- C9 witness at the reference receipt. -/
theorem c9_witness :
    calculatePoints targetReceipt = calculatePoints targetReceipt ∧
    (calculatePoints targetReceipt).1 = (calculatePoints targetReceipt).1 ∧
    (calculatePoints targetReceipt).2 = (calculatePoints targetReceipt).2 :=
  c9_deterministic targetReceipt targetReceipt (by decide) rfl

/-- C10 counterexample: `receiptNegPrice` has an unparseable total (so rules 2
and 3 both fire), yet its negative item price makes the final score 61 < 75,
refuting the claimed 75-point lower bound. -/
theorem c10_counterexample_negative_price :
    goParseFloat receiptNegPrice.total = none ∧
    (calculatePoints receiptNegPrice).1 = 61 ∧ (61 : ℤ) < 75 := by
  refine ⟨by decide, by decide, by decide⟩

/-- C10 amended: `calculatePoints` is total over every receipt — parse errors
are discarded (an unparseable total means a syntax error under the full
`strconv.ParseFloat` grammar, which also accepts `inf`/`infinity`/`nan`
spellings, hexadecimal floats and digit underscores) and such a total is
treated as 0, which makes both the round-dollar rule (+50) and the
quarter-multiple rule (+25) fire; the overall score is the 64-bit-wrapped sum
of the contributions and has no 75-point floor, because rule 5 can subtract
points when an item price parses to a negative value. -/
theorem c10_unparseable_total_amended (r : Receipt) (h : goParseFloat r.total = none) :
    rule2Str ∈ (calculatePoints r).2 ∧ rule3Str ∈ (calculatePoints r).2 ∧
    (calculatePoints r).1 =
      wrap64 ((countAlphanumeric r.retailer : ℤ) + 75 + (((r.items.length / 2) * 5 : ℕ) : ℤ)
        + sumPts r.items + (if rule6Cond r then 6 else 0)
        + (if rule7Cond r then 10 else 0)) := by
  have htot : goTotalVal r = .finite 0 := by rw [goTotalVal, h]; rfl
  have h2 : rule2Cond (goTotalVal r) = true := by rw [htot]; decide
  have h3 : rule3Cond (goTotalVal r) = true := by rw [htot]; decide
  refine ⟨?_, ?_, ?_⟩
  · rw [calculatePoints_snd]; simp [h2]
  · rw [calculatePoints_snd]; simp [h2, h3]
  · rw [calculatePoints_fst]
    simp only [h2, h3, if_true]
    congr 1

/-- C10 witness at `receiptNegPrice`. -/
theorem c10_witness :
    rule2Str ∈ (calculatePoints receiptNegPrice).2 ∧
    rule3Str ∈ (calculatePoints receiptNegPrice).2 ∧
    (calculatePoints receiptNegPrice).1 =
      wrap64 ((countAlphanumeric receiptNegPrice.retailer : ℤ) + 75
        + (((receiptNegPrice.items.length / 2) * 5 : ℕ) : ℤ)
        + sumPts receiptNegPrice.items + (if rule6Cond receiptNegPrice then 6 else 0)
        + (if rule7Cond receiptNegPrice then 10 else 0)) :=
  c10_unparseable_total_amended receiptNegPrice (by decide)
